import Mathlib

/-!
Shallow embedding of `src/main.mts` (the Moonwell tokens ATQ module).

JavaScript strings are modelled as Lean `String` (sequences of characters);
JavaScript numbers holding timestamps are modelled as `Int`; fallible
functions (functions that `throw`) return `Except String α`, the `String`
carrying the message of the thrown `Error`; the HTTP transport is modelled as an
explicit `HttpResponse` value handed to `fetchData`, and the remote service
seen by the pagination loop as a function from query index to the outcome
of a page fetch.
-/

namespace Moonwell

/-- Characters the JavaScript `String.prototype.trim` removes: the JS
WhiteSpace and LineTerminator code points (TAB, LF, VT, FF, CR, SP,
NBSP, Ogham space, the Zs block U+2000..U+200A, LS, PS, NNBSP, MMSP,
ideographic space, BOM). -/
def isJsWhitespace (c : Char) : Bool :=
  let n := c.toNat
  n = 9 || n = 10 || n = 11 || n = 12 || n = 13 || n = 32 || n = 160 ||
  n = 5760 || (8192 ≤ n && n ≤ 8202) || n = 8232 || n = 8233 ||
  n = 8239 || n = 8287 || n = 12288 || n = 65279

/-- JavaScript `text.trim()`: strip leading and trailing whitespace. -/
def jsTrim (s : String) : String :=
  ⟨((s.data.dropWhile isJsWhitespace).reverse.dropWhile isJsWhitespace).reverse⟩

/-- The test `/<[^>]*>/.test(text)` on the character list of `text`: the
regex matches somewhere in the string iff some `<` is followed (anywhere
later) by a `>` — if a closer `>` intervenes, that earlier `>` already
closes a match.  The scan below checks exactly that. -/
def angleMatch : List Char → Bool
  | [] => false
  | c :: rest => (c = '<' && rest.contains '>') || angleMatch rest

/-- `containsInvalidValue` from the source: empty/whitespace-only after
`trim`, or an HTML-like `<...>` sequence. -/
def containsInvalidValue (text : String) : Bool :=
  let containsHtml := angleMatch text.data
  let isEmpty := jsTrim text = ""
  isEmpty || containsHtml

/-- `truncateString` from the source: `text.substring(0, maxLength - 3)`
followed by the three-character ellipsis when `text` is longer than
`maxLength`, the string unchanged otherwise. -/
def truncateString (text : String) (maxLength : Nat) : String :=
  if text.length > maxLength then
    ⟨text.data.take (maxLength - 3) ++ "...".data⟩
  else
    text

/-- The `Token` interface. -/
structure Token where
  id : String
  name : String
  symbol : String
  deriving DecidableEq, Repr

/-- The `Market` interface: `outputToken` and `createdTimestamp`. -/
structure Market where
  outputToken : Token
  createdTimestamp : Int
  deriving DecidableEq, Repr

/-- The `GraphQLData` interface.  In the source `markets` is typed as
mandatory, but the runtime check `!result.data.markets` treats it as
possibly absent, so it is modelled as an `Option`. -/
structure GraphQLData where
  markets : Option (List Market)
  deriving DecidableEq, Repr

/-- One entry of the `errors` list of a GraphQL response. -/
structure GraphQLError where
  message : String
  deriving DecidableEq, Repr

/-- The `GraphQLResponse` interface: both fields optional.  `dataField`
models the JSON field named `data`. -/
structure GraphQLResponse where
  dataField : Option GraphQLData
  errors : Option (List GraphQLError)
  deriving DecidableEq, Repr

/-- The part of a `node-fetch` response that `fetchData` inspects:
`ok`, `status`, and the parsed JSON body. -/
structure HttpResponse where
  ok : Bool
  status : Nat
  body : GraphQLResponse
  deriving DecidableEq, Repr

/-- The output record (`ContractTag`).  Field names stand for the JSON
keys "Contract Address", "Public Name Tag", "Project Name",
"UI/Website Link" and "Public Note". -/
structure ContractTag where
  contractAddress : String
  publicNameTag : String
  projectName : String
  uiWebsiteLink : String
  publicNote : String
  deriving DecidableEq, Repr

/-- `fetchData` from the source, given the response of the transport for the
issued POST.  The JavaScript `if (result.errors)` tests truthiness: any
present array — also an empty one — takes the error branch. -/
def fetchData (response : HttpResponse) : Except String (List Market) :=
  if response.ok = false then
    .error ("HTTP error: " ++ toString response.status)
  else
    match response.body.errors with
    | some _ => .error "GraphQL errors occurred: see logs for details."
    | none =>
      match response.body.dataField with
      | none => .error "No markets data found."
      | some d =>
        match d.markets with
        | none => .error "No markets data found."
        | some ms => .ok ms

/-- Hexadecimal digit character (uppercase), as `encodeURIComponent`
produces. -/
def hexDigitUpper (n : Nat) : Char :=
  if n < 10 then Char.ofNat (48 + n) else Char.ofNat (55 + n)

/-- UTF-8 byte sequence of a character, each byte a `Nat < 256`. -/
def utf8Bytes (c : Char) : List Nat :=
  let n := c.toNat
  if n < 128 then [n]
  else if n < 2048 then [192 + n / 64, 128 + n % 64]
  else if n < 65536 then [224 + n / 4096, 128 + n / 64 % 64, 128 + n % 64]
  else [240 + n / 262144, 128 + n / 4096 % 64, 128 + n / 64 % 64, 128 + n % 64]

/-- Characters `encodeURIComponent` leaves unescaped: alphanumerics and
`-`, `_`, `.`, `!`, `~`, `*`, the apostrophe (U+0027), `(` and `)`. -/
def isUriUnescaped (c : Char) : Bool :=
  c.isAlphanum || c = '-' || c = '_' || c = '.' || c = '!' || c = '~' ||
  c = '*' || c = Char.ofNat 39 || c = '(' || c = ')'

/-- Percent-escape one byte: `%XY` with uppercase hex digits. -/
def percentByte (b : Nat) : List Char :=
  ['%', hexDigitUpper (b / 16), hexDigitUpper (b % 16)]

/-- `encodeURIComponent` on a character list: keep unescaped characters,
percent-encode the UTF-8 bytes of every other character. -/
def encodeChars : List Char → List Char
  | [] => []
  | c :: rest =>
    (if isUriUnescaped c then [c] else (utf8Bytes c).flatMap percentByte) ++
      encodeChars rest

/-- JavaScript `encodeURIComponent`. -/
def encodeURIComponent (s : String) : String :=
  ⟨encodeChars s.data⟩

/-- `pat` is a prefix of `s` (character lists). -/
def listStartsWith : List Char → List Char → Bool
  | _, [] => true
  | [], _ :: _ => false
  | c :: cs, p :: ps => c = p && listStartsWith cs ps

/-- JavaScript `s.replace(pat, rep)` with a string pattern: replace the
first occurrence of `pat` only, leave `s` unchanged when `pat` does not
occur. -/
def replaceFirstList (s pat rep : List Char) : List Char :=
  match s with
  | [] => []
  | c :: rest =>
    if listStartsWith (c :: rest) pat then rep ++ (c :: rest).drop pat.length
    else c :: replaceFirstList rest pat rep

/-- `pat` occurs as a contiguous substring of `s`. -/
def occursIn (pat s : List Char) : Bool :=
  match s with
  | [] => listStartsWith [] pat
  | _ :: rest => listStartsWith s pat || occursIn pat rest

/-- `SUBGRAPH_URLS` from the source, as an association list in the
insertion order of the source (which `Object.keys` preserves); each value is
the `decentralized` URL template. -/
def SUBGRAPH_URLS : List (String × String) :=
  [("1284", "https://gateway.thegraph.com/api/[api-key]/subgraphs/id/DQhrdUHwspQf3hSjDtyfS6uqq9YiKoLF3Ut3U9os2HK"),
   ("1285", "https://gateway.thegraph.com/api/[api-key]/subgraphs/id/8ayELti1UNCNCWuvwSwapjh4mvvCejeXsk4PmsWBmQ82"),
   ("8453", "https://gateway.thegraph.com/api/[api-key]/subgraphs/id/33ex1ExmYQtwGVwri1AP3oMFPGSce6YbocBP7fWbsBrg")]

/-- `isNaN(Number(chainId))`, modelled for unsigned decimal integer
strings: `Number` yields a non-NaN value on a non-empty all-digit
string, NaN otherwise.  (This subset is exact on every input at which
the source can reach this test: when the chain id is a key of
`SUBGRAPH_URLS` it is all digits, and otherwise the `!urls` disjunct
already short-circuits the condition.) -/
def jsNumberIsNaN (s : String) : Bool :=
  !(s ≠ "" && s.data.all Char.isDigit)

/-- The error message of `prepareUrl`, enumerating the supported chain
ids with `Object.keys(SUBGRAPH_URLS).join(", ")`. -/
def unsupportedChainMsg (chainId : String) : String :=
  "Unsupported or invalid Chain ID provided: " ++ chainId ++
    ". Only the following values are accepted: " ++
    String.intercalate ", " (SUBGRAPH_URLS.map Prod.fst)

/-- `prepareUrl` from the source: look the chain id up in
`SUBGRAPH_URLS`; throw when it is absent or not numeric; otherwise
substitute the URI-component-encoded api key for the first occurrence
of `[api-key]` in the template. -/
def prepareUrl (chainId apiKey : String) : Except String String :=
  match SUBGRAPH_URLS.lookup chainId with
  | none => .error (unsupportedChainMsg chainId)
  | some url =>
    if jsNumberIsNaN chainId then .error (unsupportedChainMsg chainId)
    else .ok ⟨replaceFirstList url.data "[api-key]".data (encodeURIComponent apiKey).data⟩

/-- The `ContractTag` built for one valid market inside
`transformMarketsToTags`. -/
def marketToTag (chainId : String) (market : Market) : ContractTag :=
  let maxNameLength := 44
  let truncatedNameText := truncateString market.outputToken.symbol maxNameLength
  { contractAddress := "eip155:" ++ chainId ++ ":" ++ market.outputToken.id
    publicNameTag := truncatedNameText ++ " Token"
    projectName := "Moonwell"
    uiWebsiteLink := "https://moonwell.fi/"
    publicNote := "Moonwell\x27s " ++ market.outputToken.symbol ++ " (" ++
      market.outputToken.name ++ ") token contract." }

/-- `transformMarketsToTags` from the source.  The `forEach` that pushes
each market with a valid symbol onto `validMarkets` (and each invalid one
onto the log list) is the order-preserving `filter`; the final `map`
builds the tags.  -/
def transformMarketsToTags (chainId : String) (markets : List Market) : List ContractTag :=
  let validMarkets := markets.filter (fun market => !containsInvalidValue market.outputToken.symbol)
  validMarkets.map (marketToTag chainId)

/-- `Math.max(...xs)` over the timestamps of a page.  The empty case
(`-Infinity` in JavaScript) is unreachable: the source evaluates it only
on pages of exactly 1000 records. -/
def mathMax : List Int → Int
  | [] => 0
  | x :: xs => xs.foldl max x

/-- Outcome of `returnTags`: the thrown error or the accumulated tags,
together with the `lastTimestamp` cursor passed to each query that was
issued, in issue order. -/
structure LoopResult where
  result : Except String (List ContractTag)
  cursors : List Int
  deriving Repr

/-- The `while (isMore)` loop of `returnTags`.  `remote k` is the outcome
of the `k`-th `fetchData` call (the behaviour of the remote service);
`lastTimestamp` is the cursor; a caught error is rethrown as
`Failed fetching data: ${error}`, and `${error}` stringifies a JavaScript
`Error` as `Error: <message>`.  `fuel` bounds the number of iterations
modelled (the JavaScript loop itself may run unboundedly). -/
def returnTagsLoop (chainId : String) (remote : Nat → Except String (List Market)) :
    Nat → Nat → Int → List ContractTag → List Int → LoopResult
  | 0, _, _, allTags, cursors => ⟨.ok allTags, cursors⟩
  | fuel + 1, k, lastTimestamp, allTags, cursors =>
    match remote k with
    | .error e => ⟨.error ("Failed fetching data: Error: " ++ e), cursors ++ [lastTimestamp]⟩
    | .ok markets =>
      let tags := transformMarketsToTags chainId markets
      let allTags := allTags ++ tags
      if markets.length = 1000 then
        returnTagsLoop chainId remote fuel (k + 1)
          (mathMax (markets.map Market.createdTimestamp)) allTags (cursors ++ [lastTimestamp])
      else
        ⟨.ok allTags, cursors ++ [lastTimestamp]⟩

/-- `returnTags` from the source: resolve the URL (outside the `try`, so
a `prepareUrl` throw propagates as is), then run the pagination loop
from cursor `0`. -/
def returnTags (chainId apiKey : String) (remote : Nat → Except String (List Market))
    (fuel : Nat) : LoopResult :=
  match prepareUrl chainId apiKey with
  | .error e => ⟨.error e, []⟩
  | .ok _url => returnTagsLoop chainId remote fuel 0 0 [] []

/-! ## Theorems -/

lemma jsTrim_data (s : String) :
    (jsTrim s).data =
      ((s.data.dropWhile isJsWhitespace).reverse.dropWhile isJsWhitespace).reverse := rfl

lemma all_dropWhile_iff {p : Char → Bool} (l : List Char) :
    (∀ x ∈ l.dropWhile p, p x = true) ↔ (∀ x ∈ l, p x = true) := by
  induction l with
  | nil => simp
  | cons c l ih =>
    by_cases hp : p c = true
    · simp [List.dropWhile_cons, hp, ih]
    · simp [List.dropWhile_cons, hp]

lemma jsTrim_eq_empty_iff (s : String) :
    jsTrim s = "" ↔ ∀ c ∈ s.data, isJsWhitespace c = true := by
  constructor
  · intro h
    have hd : (jsTrim s).data = ([] : List Char) := by rw [h]
    rw [jsTrim_data, List.reverse_eq_nil_iff, List.dropWhile_eq_nil_iff] at hd
    have : ∀ x ∈ s.data.dropWhile isJsWhitespace, isJsWhitespace x = true := by
      intro x hx
      exact hd x (List.mem_reverse.mpr hx)
    exact (all_dropWhile_iff s.data).mp this
  · intro h
    have hd : ((s.data.dropWhile isJsWhitespace).reverse.dropWhile isJsWhitespace).reverse
        = ([] : List Char) := by
      rw [List.reverse_eq_nil_iff, List.dropWhile_eq_nil_iff]
      intro x hx
      exact h x (List.Sublist.mem (List.mem_reverse.mp hx) (List.dropWhile_sublist _))
    show String.mk _ = ""
    rw [hd]

/-- C3: `truncateString s 44` returns `s` unchanged when `s` has at most
44 characters; when `s` is longer, the result has exactly 44 characters,
its last 3 characters are the ellipsis `...`, and its first 41
characters are the first 41 characters of `s`. -/
theorem truncateString_spec (s : String) :
    (s.length ≤ 44 → truncateString s 44 = s) ∧
    (44 < s.length →
      (truncateString s 44).length = 44 ∧
      (truncateString s 44).data.drop 41 = "...".data ∧
      (truncateString s 44).data.take 41 = s.data.take 41) := by
  cases s with
  | mk data =>
    have hlen : String.length ⟨data⟩ = data.length := rfl
    constructor
    · intro h
      rw [hlen] at h
      unfold truncateString
      rw [if_neg (by rw [hlen]; omega)]
    · intro h
      rw [hlen] at h
      unfold truncateString
      rw [if_pos (by rw [hlen]; omega)]
      have htake : (data.take (44 - 3)).length = 41 := by
        rw [List.length_take]; omega
      refine ⟨?_, ?_, ?_⟩
      · show (data.take (44 - 3) ++ "...".data).length = 44
        rw [List.length_append, htake]
        rfl
      · show (data.take (44 - 3) ++ "...".data).drop 41 = "...".data
        exact List.drop_left' htake
      · show (data.take (44 - 3) ++ "...".data).take 41 = data.take 41
        exact List.take_left' htake

/-- Witness for C3 at a 49-character string and at `"ABC"`. -/
theorem truncateString_spec_witness :
    (truncateString "0123456789012345678901234567890123456789012345678" 44).length = 44 ∧
    (truncateString "0123456789012345678901234567890123456789012345678" 44).data.drop 41
      = "...".data ∧
    (truncateString "0123456789012345678901234567890123456789012345678" 44).data.take 41
      = "0123456789012345678901234567890123456789012345678".data.take 41 ∧
    truncateString "ABC" 44 = "ABC" :=
  ⟨(truncateString_spec "0123456789012345678901234567890123456789012345678").2 (by decide)
    |>.1,
   (truncateString_spec "0123456789012345678901234567890123456789012345678").2 (by decide)
    |>.2.1,
   (truncateString_spec "0123456789012345678901234567890123456789012345678").2 (by decide)
    |>.2.2,
   (truncateString_spec "ABC").1 (by decide)⟩

lemma angleMatch_iff (cs : List Char) :
    angleMatch cs = true ↔ ∃ l m r, cs = l ++ '<' :: (m ++ '>' :: r) := by
  induction cs with
  | nil =>
    constructor
    · intro h
      exact absurd h (by simp [angleMatch])
    · rintro ⟨l, m, r, h⟩
      exact absurd h (by simp)
  | cons c cs ih =>
    simp only [angleMatch, Bool.or_eq_true, Bool.and_eq_true, decide_eq_true_eq]
    constructor
    · rintro (⟨hc, hcont⟩ | h)
      · have hmem : '>' ∈ cs := by
          simpa using hcont
        obtain ⟨m, r, hmr⟩ := List.append_of_mem hmem
        exact ⟨[], m, r, by simp [hc, hmr]⟩
      · obtain ⟨l, m, r, hsplit⟩ := ih.mp h
        exact ⟨c :: l, m, r, by simp [hsplit]⟩
    · rintro ⟨l, m, r, h⟩
      cases l with
      | nil =>
        simp only [List.nil_append, List.cons.injEq] at h
        left
        refine ⟨h.1, ?_⟩
        simp [h.2]
      | cons a l =>
        simp only [List.cons_append, List.cons.injEq] at h
        right
        exact ih.mpr ⟨l, m, r, h.2⟩

/-- C4: `transformMarketsToTags` keeps exactly the markets whose output
token symbol passes `containsInvalidValue`, mapping each kept market to
one tag; and a symbol is invalid precisely when it is empty, consists
only of whitespace, or has an opening `<` followed later by a closing
`>`. -/
theorem transformMarketsToTags_filter_spec (chainId : String) (markets : List Market) :
    transformMarketsToTags chainId markets =
      (markets.filter
        (fun market => !containsInvalidValue market.outputToken.symbol)).map
        (marketToTag chainId) ∧
    ∀ s : String, containsInvalidValue s = true ↔
      (s = "" ∨ (∀ c ∈ s.data, isJsWhitespace c = true) ∨
        ∃ l m r, s.data = l ++ '<' :: (m ++ '>' :: r)) := by
  refine ⟨rfl, ?_⟩
  intro s
  show (decide (jsTrim s = "") || angleMatch s.data) = true ↔ _
  simp only [Bool.or_eq_true, decide_eq_true_eq]
  constructor
  · rintro (htrim | hangle)
    · exact Or.inr (Or.inl ((jsTrim_eq_empty_iff s).mp htrim))
    · exact Or.inr (Or.inr ((angleMatch_iff s.data).mp hangle))
  · rintro (hempty | hws | hangle)
    · left
      apply (jsTrim_eq_empty_iff s).mpr
      rw [hempty]
      intro c hc
      exact absurd hc (by simp [show ("" : String).data = [] from rfl])
    · exact Or.inl ((jsTrim_eq_empty_iff s).mpr hws)
    · exact Or.inr ((angleMatch_iff s.data).mpr hangle)

/-- C10: whether a market is kept depends only on the symbol of its
output token — two markets with equal symbols are both kept or both dropped,
whatever their ids, names and timestamps. -/
theorem inclusion_depends_only_on_symbol (chainId : String) (m1 m2 : Market)
    (h : m1.outputToken.symbol = m2.outputToken.symbol) :
    containsInvalidValue m1.outputToken.symbol
      = containsInvalidValue m2.outputToken.symbol ∧
    (transformMarketsToTags chainId [m1]).length
      = (transformMarketsToTags chainId [m2]).length := by
  refine ⟨by rw [h], ?_⟩
  cases hc : containsInvalidValue m2.outputToken.symbol <;>
    simp [transformMarketsToTags, List.filter_cons, h, hc]

/-- Witness for C10: a market whose id and name contain markup, against
a plain market with the same (valid) symbol — both are kept, and the
markup-carrying one still produces its tag. -/
theorem inclusion_depends_only_on_symbol_witness :
    (containsInvalidValue (Market.mk ⟨"<script>", "<b>name</b>", "OK"⟩ 1).outputToken.symbol
       = containsInvalidValue (Market.mk ⟨"0x1", "plain", "OK"⟩ 2).outputToken.symbol ∧
     (transformMarketsToTags "1284" [Market.mk ⟨"<script>", "<b>name</b>", "OK"⟩ 1]).length
       = (transformMarketsToTags "1284" [Market.mk ⟨"0x1", "plain", "OK"⟩ 2]).length) ∧
    (transformMarketsToTags "1284" [Market.mk ⟨"<script>", "<b>name</b>", "OK"⟩ 1]).length = 1 :=
  ⟨inclusion_depends_only_on_symbol "1284"
      (Market.mk ⟨"<script>", "<b>name</b>", "OK"⟩ 1)
      (Market.mk ⟨"0x1", "plain", "OK"⟩ 2) rfl,
   by decide⟩

/-- C2 counterexample: a transport-success response whose `errors` field
is present but an *empty* list, with the markets page present.  The
claim predicts success; `fetchData` fails, because the JavaScript
`if (result.errors)` takes any present array — also `[]` — for truthy. -/
theorem fetchData_empty_errors_counterexample :
    fetchData ⟨true, 200, ⟨some ⟨some [⟨⟨"0x1", "N", "S"⟩, 1⟩]⟩, some []⟩⟩
      = .error "GraphQL errors occurred: see logs for details." ∧
    (⟨true, 200, ⟨some ⟨some [⟨⟨"0x1", "N", "S"⟩, 1⟩]⟩, some []⟩⟩ : HttpResponse).ok = true ∧
    (⟨true, 200, ⟨some ⟨some [⟨⟨"0x1", "N", "S"⟩, 1⟩]⟩, some []⟩⟩ :
        HttpResponse).body.errors = some [] ∧
    (⟨true, 200, ⟨some ⟨some [⟨⟨"0x1", "N", "S"⟩, 1⟩]⟩, some []⟩⟩ :
        HttpResponse).body.dataField = some ⟨some [⟨⟨"0x1", "N", "S"⟩, 1⟩]⟩ :=
  ⟨rfl, rfl, rfl, rfl⟩

/-- C2 (amended): `fetchData` returns the page `ms` exactly when the
transport reports success, the `errors` field is absent (a present but
empty errors list already fails), and the `data` field is present with
`markets` equal to `ms`; it fails in every other case. -/
theorem fetchData_spec (r : HttpResponse) :
    (∀ ms : List Market,
      fetchData r = .ok ms ↔
        (r.ok = true ∧ r.body.errors = none ∧
          r.body.dataField.bind GraphQLData.markets = some ms)) ∧
    ((∃ e, fetchData r = .error e) ↔
      (r.ok = false ∨ r.body.errors ≠ none ∨
        r.body.dataField.bind GraphQLData.markets = none)) := by
  rcases r with ⟨ok, status, ⟨dataField, errors⟩⟩
  constructor
  · intro ms
    cases ok <;> rcases errors with _ | es <;>
      rcases dataField with _ | ⟨_ | ms'⟩ <;>
      simp [fetchData, Option.bind]
  · cases ok <;> rcases errors with _ | es <;>
      rcases dataField with _ | ⟨_ | ms'⟩ <;>
      simp [fetchData, Option.bind]

lemma listStartsWith_nil (s : List Char) : listStartsWith s [] = true := by
  cases s <;> rfl

lemma listStartsWith_append (pat post : List Char) :
    listStartsWith (pat ++ post) pat = true := by
  induction pat with
  | nil => exact listStartsWith_nil post
  | cons p ps ih => simp [listStartsWith, ih]

lemma replaceFirstList_split (pre pat post rep : List Char) (hne : pat ≠ [])
    (hpre : ∀ i < pre.length, listStartsWith ((pre ++ (pat ++ post)).drop i) pat = false) :
    replaceFirstList (pre ++ (pat ++ post)) pat rep = pre ++ (rep ++ post) := by
  induction pre with
  | nil =>
    rcases pat with _ | ⟨p, ps⟩
    · exact absurd rfl hne
    · show replaceFirstList (p :: (ps ++ post)) (p :: ps) rep = rep ++ post
      have h : listStartsWith (p :: (ps ++ post)) (p :: ps) = true :=
        listStartsWith_append (p :: ps) post
      rw [replaceFirstList, if_pos h]
      show rep ++ ((p :: ps) ++ post).drop (p :: ps).length = rep ++ post
      rw [List.drop_left]
  | cons c pre ih =>
    have h0 := hpre 0 (by simp)
    simp only [List.cons_append, List.drop_zero] at h0
    show replaceFirstList (c :: (pre ++ (pat ++ post))) pat rep = (c :: pre) ++ (rep ++ post)
    rw [replaceFirstList, if_neg (by simp [h0])]
    have hrec := ih (fun i hi => by
      have h' := hpre (i + 1) (by simpa using hi)
      simpa using h')
    simp [hrec]

lemma occursIn_append_right (pat l r : List Char) (h : occursIn pat r = true) :
    occursIn pat (l ++ r) = true := by
  induction l with
  | nil => simpa using h
  | cons c l ih => simp [occursIn, ih]

lemma occursIn_self_append (pat post : List Char) :
    occursIn pat (pat ++ post) = true := by
  rcases pat with _ | ⟨p, ps⟩
  · cases post with
    | nil => rfl
    | cons c rest =>
      show occursIn [] (c :: rest) = true
      rw [occursIn]
      simp [listStartsWith_nil]
  · show occursIn (p :: ps) (p :: (ps ++ post)) = true
    have h := listStartsWith_append (p :: ps) post
    rw [occursIn]
    simp only [Bool.or_eq_true]
    exact Or.inl h

lemma prepareUrl_1284 (apiKey : String) :
    prepareUrl "1284" apiKey =
      .ok ⟨"https://gateway.thegraph.com/api/".data ++
           ((encodeURIComponent apiKey).data ++
             "/subgraphs/id/DQhrdUHwspQf3hSjDtyfS6uqq9YiKoLF3Ut3U9os2HK".data)⟩ := by
  show Except.ok (String.mk (replaceFirstList
      ("https://gateway.thegraph.com/api/".data ++
        ("[api-key]".data ++ "/subgraphs/id/DQhrdUHwspQf3hSjDtyfS6uqq9YiKoLF3Ut3U9os2HK".data))
      "[api-key]".data (encodeURIComponent apiKey).data)) = _
  rw [replaceFirstList_split _ _ _ _ (by decide) (by decide)]

lemma prepareUrl_1285 (apiKey : String) :
    prepareUrl "1285" apiKey =
      .ok ⟨"https://gateway.thegraph.com/api/".data ++
           ((encodeURIComponent apiKey).data ++
             "/subgraphs/id/8ayELti1UNCNCWuvwSwapjh4mvvCejeXsk4PmsWBmQ82".data)⟩ := by
  show Except.ok (String.mk (replaceFirstList
      ("https://gateway.thegraph.com/api/".data ++
        ("[api-key]".data ++ "/subgraphs/id/8ayELti1UNCNCWuvwSwapjh4mvvCejeXsk4PmsWBmQ82".data))
      "[api-key]".data (encodeURIComponent apiKey).data)) = _
  rw [replaceFirstList_split _ _ _ _ (by decide) (by decide)]

lemma prepareUrl_8453 (apiKey : String) :
    prepareUrl "8453" apiKey =
      .ok ⟨"https://gateway.thegraph.com/api/".data ++
           ((encodeURIComponent apiKey).data ++
             "/subgraphs/id/33ex1ExmYQtwGVwri1AP3oMFPGSce6YbocBP7fWbsBrg".data)⟩ := by
  show Except.ok (String.mk (replaceFirstList
      ("https://gateway.thegraph.com/api/".data ++
        ("[api-key]".data ++ "/subgraphs/id/33ex1ExmYQtwGVwri1AP3oMFPGSce6YbocBP7fWbsBrg".data))
      "[api-key]".data (encodeURIComponent apiKey).data)) = _
  rw [replaceFirstList_split _ _ _ _ (by decide) (by decide)]

lemma lookup_none_of_unsupported (chainId : String)
    (h1 : chainId ≠ "1284") (h2 : chainId ≠ "1285") (h3 : chainId ≠ "8453") :
    SUBGRAPH_URLS.lookup chainId = none := by
  have b1 : (chainId == "1284") = false := beq_eq_false_iff_ne.mpr h1
  have b2 : (chainId == "1285") = false := beq_eq_false_iff_ne.mpr h2
  have b3 : (chainId == "8453") = false := beq_eq_false_iff_ne.mpr h3
  simp [SUBGRAPH_URLS, List.lookup, b1, b2, b3]

/-- C5: for each supported chain id ("1284", "1285", "8453") the key
placeholder is substituted exactly once — the result is the prefix of the template,
the encoded key, and the suffix of the template, and the placeholder
occurs nowhere else in the template; for every other chain id the call
fails, and the failure message contains all three supported ids. -/
theorem prepareUrl_spec :
    (∀ apiKey : String,
      prepareUrl "1284" apiKey =
        .ok ⟨"https://gateway.thegraph.com/api/".data ++
             ((encodeURIComponent apiKey).data ++
               "/subgraphs/id/DQhrdUHwspQf3hSjDtyfS6uqq9YiKoLF3Ut3U9os2HK".data)⟩) ∧
    (∀ apiKey : String,
      prepareUrl "1285" apiKey =
        .ok ⟨"https://gateway.thegraph.com/api/".data ++
             ((encodeURIComponent apiKey).data ++
               "/subgraphs/id/8ayELti1UNCNCWuvwSwapjh4mvvCejeXsk4PmsWBmQ82".data)⟩) ∧
    (∀ apiKey : String,
      prepareUrl "8453" apiKey =
        .ok ⟨"https://gateway.thegraph.com/api/".data ++
             ((encodeURIComponent apiKey).data ++
               "/subgraphs/id/33ex1ExmYQtwGVwri1AP3oMFPGSce6YbocBP7fWbsBrg".data)⟩) ∧
    occursIn "[api-key]".data "https://gateway.thegraph.com/api/".data = false ∧
    occursIn "[api-key]".data
      "/subgraphs/id/DQhrdUHwspQf3hSjDtyfS6uqq9YiKoLF3Ut3U9os2HK".data = false ∧
    occursIn "[api-key]".data
      "/subgraphs/id/8ayELti1UNCNCWuvwSwapjh4mvvCejeXsk4PmsWBmQ82".data = false ∧
    occursIn "[api-key]".data
      "/subgraphs/id/33ex1ExmYQtwGVwri1AP3oMFPGSce6YbocBP7fWbsBrg".data = false ∧
    (∀ chainId apiKey : String,
      chainId ≠ "1284" → chainId ≠ "1285" → chainId ≠ "8453" →
      prepareUrl chainId apiKey = .error (unsupportedChainMsg chainId) ∧
      occursIn "1284".data (unsupportedChainMsg chainId).data = true ∧
      occursIn "1285".data (unsupportedChainMsg chainId).data = true ∧
      occursIn "8453".data (unsupportedChainMsg chainId).data = true) := by
  refine ⟨prepareUrl_1284, prepareUrl_1285, prepareUrl_8453,
    by decide, by decide, by decide, by decide, ?_⟩
  intro chainId apiKey h1 h2 h3
  have hl := lookup_none_of_unsupported chainId h1 h2 h3
  have hdata : (unsupportedChainMsg chainId).data
      = (("Unsupported or invalid Chain ID provided: " ++ chainId) ++
          ". Only the following values are accepted: ").data ++
        (String.intercalate ", " (SUBGRAPH_URLS.map Prod.fst)).data :=
    String.data_append _ _
  refine ⟨?_, ?_, ?_, ?_⟩
  · unfold prepareUrl
    rw [hl]
  · rw [hdata]
    exact occursIn_append_right _ _ _ (by decide)
  · rw [hdata]
    exact occursIn_append_right _ _ _ (by decide)
  · rw [hdata]
    exact occursIn_append_right _ _ _ (by decide)

/-- Witness for C5 at the unsupported chain id "999". -/
theorem prepareUrl_spec_witness :
    prepareUrl "999" "key" = .error (unsupportedChainMsg "999") ∧
    occursIn "1284".data (unsupportedChainMsg "999").data = true ∧
    occursIn "1285".data (unsupportedChainMsg "999").data = true ∧
    occursIn "8453".data (unsupportedChainMsg "999").data = true :=
  prepareUrl_spec.2.2.2.2.2.2.2 "999" "key" (by decide) (by decide) (by decide)

/-- C9: for every supported chain id the produced URL contains the
URI-component-encoded form of the api key; and a key with reserved
characters (here `a/b&c`) is substituted in encoded form (`a%2Fb%26c`),
the raw key not occurring in the URL. -/
theorem prepareUrl_encodes_key (apiKey : String) :
    (∃ u, prepareUrl "1284" apiKey = .ok u ∧
      occursIn (encodeURIComponent apiKey).data u.data = true) ∧
    (∃ u, prepareUrl "1285" apiKey = .ok u ∧
      occursIn (encodeURIComponent apiKey).data u.data = true) ∧
    (∃ u, prepareUrl "8453" apiKey = .ok u ∧
      occursIn (encodeURIComponent apiKey).data u.data = true) ∧
    encodeURIComponent "a/b&c" = "a%2Fb%26c" ∧
    prepareUrl "1284" "a/b&c" =
      .ok "https://gateway.thegraph.com/api/a%2Fb%26c/subgraphs/id/DQhrdUHwspQf3hSjDtyfS6uqq9YiKoLF3Ut3U9os2HK" ∧
    occursIn "a/b&c".data
      "https://gateway.thegraph.com/api/a%2Fb%26c/subgraphs/id/DQhrdUHwspQf3hSjDtyfS6uqq9YiKoLF3Ut3U9os2HK".data
      = false := by
  refine ⟨⟨_, prepareUrl_1284 apiKey, ?_⟩, ⟨_, prepareUrl_1285 apiKey, ?_⟩,
    ⟨_, prepareUrl_8453 apiKey, ?_⟩, by decide, by rfl, by decide⟩ <;>
  exact occursIn_append_right _ _ _ (occursIn_self_append _ _)

lemma returnTagsLoop_step (chainId : String) (remote : Nat → Except String (List Market))
    (fuel k : Nat) (cur : Int) (acc : List ContractTag) (cs : List Int)
    (hfuel : 1 ≤ fuel) (p : List Market) (hp : remote k = .ok p) (hlen : p.length = 1000) :
    returnTagsLoop chainId remote fuel k cur acc cs =
      returnTagsLoop chainId remote (fuel - 1) (k + 1)
        (mathMax (p.map Market.createdTimestamp))
        (acc ++ transformMarketsToTags chainId p) (cs ++ [cur]) := by
  cases fuel with
  | zero => omega
  | succ f => simp [returnTagsLoop, hp, hlen]

lemma returnTagsLoop_last (chainId : String) (remote : Nat → Except String (List Market))
    (fuel k : Nat) (cur : Int) (acc : List ContractTag) (cs : List Int)
    (hfuel : 1 ≤ fuel) (p : List Market) (hp : remote k = .ok p) (hlen : p.length ≠ 1000) :
    returnTagsLoop chainId remote fuel k cur acc cs =
      ⟨.ok (acc ++ transformMarketsToTags chainId p), cs ++ [cur]⟩ := by
  cases fuel with
  | zero => omega
  | succ f => simp [returnTagsLoop, hp, hlen]

lemma returnTagsLoop_err (chainId : String) (remote : Nat → Except String (List Market))
    (fuel k : Nat) (cur : Int) (acc : List ContractTag) (cs : List Int)
    (hfuel : 1 ≤ fuel) (e : String) (hp : remote k = .error e) :
    returnTagsLoop chainId remote fuel k cur acc cs =
      ⟨.error ("Failed fetching data: Error: " ++ e), cs ++ [cur]⟩ := by
  cases fuel with
  | zero => omega
  | succ f => simp [returnTagsLoop, hp]

lemma foldl_max_le (a : Int) (l : List Int) :
    a ≤ l.foldl max a ∧ ∀ x ∈ l, x ≤ l.foldl max a := by
  induction l generalizing a with
  | nil => exact ⟨le_refl a, by simp⟩
  | cons y l ih =>
    obtain ⟨h1, h2⟩ := ih (max a y)
    simp only [List.foldl_cons]
    refine ⟨le_trans (le_max_left a y) h1, ?_⟩
    intro x hx
    rcases List.mem_cons.mp hx with rfl | hx
    · exact le_trans (le_max_right a x) h1
    · exact h2 x hx

lemma foldl_max_mem (a : Int) (l : List Int) :
    l.foldl max a = a ∨ l.foldl max a ∈ l := by
  induction l generalizing a with
  | nil => exact Or.inl rfl
  | cons y l ih =>
    simp only [List.foldl_cons]
    rcases ih (max a y) with h | h
    · rcases max_choice a y with hm | hm
      · exact Or.inl (by rw [h, hm])
      · exact Or.inr (by rw [h, hm]; exact List.mem_cons_self y l)
    · exact Or.inr (List.mem_cons_of_mem y h)

lemma mathMax_spec (xs : List Int) (h : xs ≠ []) :
    mathMax xs ∈ xs ∧ ∀ x ∈ xs, x ≤ mathMax xs := by
  rcases xs with _ | ⟨x, xs⟩
  · exact absurd rfl h
  · constructor
    · show xs.foldl max x ∈ x :: xs
      rcases foldl_max_mem x xs with hm | hm
      · rw [hm]; exact List.mem_cons_self x xs
      · exact List.mem_cons_of_mem x hm
    · intro y hy
      obtain ⟨h1, h2⟩ := foldl_max_le x xs
      rcases List.mem_cons.mp hy with rfl | hy
      · exact h1
      · exact h2 y hy

/-- C1: on pages of sizes 1000, 1000, 400 the loop issues exactly 3
queries, returns the concatenation of the transformed tags of the three pages,
and passes to the third query a cursor equal to the maximum
`createdTimestamp` of page 2. -/
theorem pagination_three_pages (chainId : String)
    (remote : Nat → Except String (List Market)) (p1 p2 p3 : List Market) (fuel : Nat)
    (h0 : remote 0 = .ok p1) (h1 : remote 1 = .ok p2) (h2 : remote 2 = .ok p3)
    (l1 : p1.length = 1000) (l2 : p2.length = 1000) (l3 : p3.length = 400)
    (hfuel : 3 ≤ fuel) :
    returnTagsLoop chainId remote fuel 0 0 [] [] =
      ⟨.ok (transformMarketsToTags chainId p1 ++ transformMarketsToTags chainId p2 ++
            transformMarketsToTags chainId p3),
       [0, mathMax (p1.map Market.createdTimestamp),
        mathMax (p2.map Market.createdTimestamp)]⟩ ∧
    (returnTagsLoop chainId remote fuel 0 0 [] []).cursors.length = 3 ∧
    mathMax (p2.map Market.createdTimestamp) ∈ p2.map Market.createdTimestamp ∧
    (∀ t ∈ p2.map Market.createdTimestamp, t ≤ mathMax (p2.map Market.createdTimestamp)) := by
  have hne : p2.map Market.createdTimestamp ≠ [] := by
    intro hnil
    have := congrArg List.length hnil
    simp [l2] at this
  obtain ⟨hmem, hle⟩ := mathMax_spec (p2.map Market.createdTimestamp) hne
  rw [returnTagsLoop_step chainId remote fuel 0 0 [] [] (by omega) p1 h0 l1,
      returnTagsLoop_step chainId remote (fuel - 1) 1 _ _ _ (by omega) p2 h1 l2,
      returnTagsLoop_last chainId remote (fuel - 1 - 1) 2 _ _ _ (by omega) p3 h2
        (by rw [l3]; decide)]
  refine ⟨by simp, by simp, hmem, hle⟩

/-- Witness for C1: three concrete pages of sizes 1000, 1000 and 400. -/
theorem pagination_three_pages_witness :
    returnTagsLoop "1284"
      (fun k => if k = 0 then .ok (List.replicate 1000 ⟨⟨"0xA", "A", "AAA"⟩, 5⟩)
        else if k = 1 then .ok (List.replicate 1000 ⟨⟨"0xB", "B", "BBB"⟩, 7⟩)
        else .ok (List.replicate 400 ⟨⟨"0xC", "C", "CCC"⟩, 9⟩)) 3 0 0 [] [] =
      ⟨.ok (transformMarketsToTags "1284" (List.replicate 1000 ⟨⟨"0xA", "A", "AAA"⟩, 5⟩) ++
            transformMarketsToTags "1284" (List.replicate 1000 ⟨⟨"0xB", "B", "BBB"⟩, 7⟩) ++
            transformMarketsToTags "1284" (List.replicate 400 ⟨⟨"0xC", "C", "CCC"⟩, 9⟩)),
       [0, mathMax ((List.replicate 1000 (⟨⟨"0xA", "A", "AAA"⟩, 5⟩ : Market)).map Market.createdTimestamp),
        mathMax ((List.replicate 1000 (⟨⟨"0xB", "B", "BBB"⟩, 7⟩ : Market)).map Market.createdTimestamp)]⟩ :=
  (pagination_three_pages "1284" _
    (List.replicate 1000 ⟨⟨"0xA", "A", "AAA"⟩, 5⟩)
    (List.replicate 1000 ⟨⟨"0xB", "B", "BBB"⟩, 7⟩)
    (List.replicate 400 ⟨⟨"0xC", "C", "CCC"⟩, 9⟩) 3
    rfl rfl rfl
    (List.length_replicate 1000 _) (List.length_replicate 1000 _)
    (List.length_replicate 400 _) (by omega)).1

lemma returnTagsLoop_err_propagates (chainId : String)
    (remote : Nat → Except String (List Market)) (e : String) :
    ∀ (k0 fuel qi : Nat) (cur : Int) (acc : List ContractTag) (cs : List Int),
      (∀ j, j < k0 → ∃ p, remote (qi + j) = .ok p ∧ p.length = 1000) →
      remote (qi + k0) = .error e → k0 < fuel →
      (returnTagsLoop chainId remote fuel qi cur acc cs).result =
        .error ("Failed fetching data: Error: " ++ e) := by
  intro k0
  induction k0 with
  | zero =>
    intro fuel qi cur acc cs hok herr hfuel
    rw [returnTagsLoop_err chainId remote fuel qi cur acc cs (by omega) e
      (by simpa using herr)]
  | succ k ih =>
    intro fuel qi cur acc cs hok herr hfuel
    obtain ⟨p, hp, hlen⟩ := hok 0 (by omega)
    rw [returnTagsLoop_step chainId remote fuel qi cur acc cs (by omega) p
      (by simpa using hp) hlen]
    exact ih (fuel - 1) (qi + 1) _ _ _
      (fun j hj => by
        obtain ⟨q, hq, hql⟩ := hok (j + 1) (by omega)
        exact ⟨q, by rw [show qi + 1 + j = qi + (j + 1) from by omega]; exact hq, hql⟩)
      (by rw [show qi + 1 + k = qi + (k + 1) from by omega]; exact herr)
      (by omega)

/-- C7: if every page before query `k0` is full (1000 records) and query
`k0` fails, the whole loop fails with the rewrapped error — the result
carries no tags, so no partial list is ever returned. -/
theorem failure_aborts_whole_operation (chainId : String)
    (remote : Nat → Except String (List Market)) (e : String) (k0 fuel : Nat)
    (hok : ∀ j, j < k0 → ∃ p, remote j = .ok p ∧ p.length = 1000)
    (herr : remote k0 = .error e) (hfuel : k0 < fuel) :
    (returnTagsLoop chainId remote fuel 0 0 [] []).result =
      .error ("Failed fetching data: Error: " ++ e) :=
  returnTagsLoop_err_propagates chainId remote e k0 fuel 0 0 [] []
    (fun j hj => by simpa using hok j hj) (by simpa using herr) hfuel

/-- Witness for C7: a remote answering every query with an HTTP 500
response — the loop fails at once with the rewrapped transport error. -/
theorem failure_aborts_whole_operation_witness :
    (returnTagsLoop "1284"
        (fun _ => fetchData ⟨false, 500, ⟨none, none⟩⟩) 1 0 0 [] []).result =
      .error ("Failed fetching data: Error: " ++ "HTTP error: 500") :=
  failure_aborts_whole_operation "1284"
    (fun _ => fetchData ⟨false, 500, ⟨none, none⟩⟩) "HTTP error: 500" 0 1
    (fun j hj => absurd hj (Nat.not_lt_zero j)) rfl Nat.zero_lt_one

lemma flatten_filter_sublist (pages : List (List Market)) (q : Market → Bool) :
    ((pages.map (fun pg => pg.filter q)).flatten).Sublist pages.flatten := by
  induction pages with
  | nil => simp
  | cons p pages ih =>
    simp only [List.map_cons, List.flatten_cons]
    exact List.Sublist.append (List.filter_sublist p) ih

lemma returnTagsLoop_all_ok (chainId : String)
    (remote : Nat → Except String (List Market)) :
    ∀ (ps : List (List Market)) (plast : List Market) (fuel qi : Nat) (cur : Int)
      (acc : List ContractTag) (cs : List Int),
      (∀ i (h : i < ps.length), remote (qi + i) = .ok ps[i]) →
      (∀ p ∈ ps, p.length = 1000) →
      remote (qi + ps.length) = .ok plast →
      plast.length ≠ 1000 →
      ps.length < fuel →
      (returnTagsLoop chainId remote fuel qi cur acc cs).result =
        .ok (acc ++ ((ps ++ [plast]).map (transformMarketsToTags chainId)).flatten) := by
  intro ps
  induction ps with
  | nil =>
    intro plast fuel qi cur acc cs hpages hlen hlast hshort hfuel
    rw [returnTagsLoop_last chainId remote fuel qi cur acc cs (by omega) plast
      (by simpa using hlast) hshort]
    simp
  | cons p ps ih =>
    intro plast fuel qi cur acc cs hpages hlen hlast hshort hfuel
    have hp0 : remote qi = .ok p := by simpa using hpages 0 (by simp)
    rw [returnTagsLoop_step chainId remote fuel qi cur acc cs
      (by simp at hfuel; omega) p hp0 (hlen p (List.mem_cons_self p ps))]
    have hrec := ih plast (fuel - 1) (qi + 1) (mathMax (p.map Market.createdTimestamp))
      (acc ++ transformMarketsToTags chainId p) (cs ++ [cur])
      (fun i h => by
        have hi := hpages (i + 1) (by simp; omega)
        rw [show qi + 1 + i = qi + (i + 1) from by omega]
        simpa using hi)
      (fun q hq => hlen q (List.mem_cons_of_mem p hq))
      (by
        rw [show qi + 1 + ps.length = qi + (ps.length + 1) from by omega]
        simpa using hlast)
      hshort (by simp at hfuel; omega)
    rw [hrec]
    simp [List.append_assoc]

/-- C8: over any sequence of successfully fetched pages the output of the loop
is the image of an order-preserving selection (a sublist) of the
concatenated input pages — tags appear in the order of the markets they
came from, within each page and across pages. -/
theorem output_preserves_input_order (chainId : String)
    (remote : Nat → Except String (List Market)) (ps : List (List Market))
    (plast : List Market) (fuel : Nat)
    (hpages : ∀ i (h : i < ps.length), remote i = .ok ps[i])
    (hlen : ∀ p ∈ ps, p.length = 1000)
    (hlast : remote ps.length = .ok plast)
    (hshort : plast.length ≠ 1000)
    (hfuel : ps.length < fuel) :
    ∃ kept : List Market,
      kept.Sublist ((ps ++ [plast]).flatten) ∧
      (returnTagsLoop chainId remote fuel 0 0 [] []).result =
        .ok (kept.map (marketToTag chainId)) := by
  refine ⟨((ps ++ [plast]).map
      (fun pg => pg.filter (fun m => !containsInvalidValue m.outputToken.symbol))).flatten,
    flatten_filter_sublist _ _, ?_⟩
  have hres := returnTagsLoop_all_ok chainId remote ps plast fuel 0 0 [] []
    (fun i h => by simpa using hpages i h) hlen (by simpa using hlast) hshort hfuel
  rw [hres]
  simp only [List.nil_append]
  congr 1
  rw [List.map_flatten, List.map_map]
  rfl

/-- Witness for C8: one full page of 1000 records followed by a short
page. -/
theorem output_preserves_input_order_witness :
    ∃ kept : List Market,
      kept.Sublist (([List.replicate 1000 (⟨⟨"0xA", "A", "AAA"⟩, 5⟩ : Market)] ++
        [[(⟨⟨"0xB", "B", "BBB"⟩, 7⟩ : Market)]]).flatten) ∧
      (returnTagsLoop "1284"
          (fun k => if k = 0 then
              .ok (List.replicate 1000 (⟨⟨"0xA", "A", "AAA"⟩, 5⟩ : Market))
            else .ok [(⟨⟨"0xB", "B", "BBB"⟩, 7⟩ : Market)]) 2 0 0 [] []).result =
        .ok (kept.map (marketToTag "1284")) :=
  output_preserves_input_order "1284"
    (fun k => if k = 0 then
        .ok (List.replicate 1000 (⟨⟨"0xA", "A", "AAA"⟩, 5⟩ : Market))
      else .ok [(⟨⟨"0xB", "B", "BBB"⟩, 7⟩ : Market)])
    [List.replicate 1000 (⟨⟨"0xA", "A", "AAA"⟩, 5⟩ : Market)]
    [(⟨⟨"0xB", "B", "BBB"⟩, 7⟩ : Market)] 2
    (fun i h => by
      rw [List.length_singleton] at h
      have hi : i = 0 := Nat.lt_one_iff.mp h
      subst hi
      rfl)
    (fun p hp => by
      rw [List.mem_singleton] at hp
      subst hp
      exact List.length_replicate 1000 _)
    rfl (by decide) (by rw [List.length_singleton]; exact Nat.one_lt_two)

/-- C6: chain "1284", one page holding a market with symbol "ABC" and
token id "0xAAA" and a market with an empty symbol — the operation
returns exactly one tag, with Contract Address `eip155:1284:0xAAA`,
Public Name Tag `ABC Token`, and a Public Note embedding the untruncated
symbol and the token name. -/
theorem end_to_end_example :
    returnTags "1284" "key"
      (fun _ => .ok [⟨⟨"0xAAA", "ABC Coin", "ABC"⟩, 5⟩, ⟨⟨"0xBBB", "Empty", ""⟩, 6⟩]) 1
      = ⟨.ok [⟨"eip155:1284:0xAAA", "ABC Token", "Moonwell", "https://moonwell.fi/",
               "Moonwell\x27s ABC (ABC Coin) token contract."⟩], [0]⟩ := by
  rfl

end Moonwell
